import Mathlib

/-!
Verification of the EMI / penalty / ledger core of the loan-management system.

Numbers are modelled as exact rationals (`ℚ`); JavaScript `Math.round` becomes
`jsRound`, `Math.floor` on day quotients becomes `Int.fdiv`.  Calendar dates are
modelled by their proleptic-Gregorian day number (days counted from year 0,
month 1, day 1), which is the arithmetic JavaScript `Date` performs internally
(UTC, milliseconds = 86400000 per day); `Date.prototype.setMonth` keeps the
day-of-month and lets an overflowing day roll into the following month, which
`jsAddMonths` reproduces.
-/

namespace LMS

/-- JavaScript `Math.round`: round half toward positive infinity. -/
def jsRound (x : ℚ) : ℤ := ⌊x + 1/2⌋

/-- Gregorian leap-year rule (as implemented by JavaScript `Date`). -/
def isLeap (y : ℕ) : Bool := (y % 4 == 0 && y % 100 != 0) || (y % 400 == 0)

/-- Days in the given 1-based month of year `y`; 0 for out-of-range months. -/
def daysInMonth (y : ℕ) : ℕ → ℕ
  | 1 => 31
  | 2 => if isLeap y then 29 else 28
  | 3 => 31
  | 4 => 30
  | 5 => 31
  | 6 => 30
  | 7 => 31
  | 8 => 31
  | 9 => 30
  | 10 => 31
  | 11 => 30
  | 12 => 31
  | _ => 0

/-- Number of days in the years `0, 1, …, y-1` (365·y plus the leap days). -/
def daysBeforeYear (y : ℕ) : ℕ :=
  365 * y + (y + 3) / 4 + (y + 399) / 400 - (y + 99) / 100

/-- Number of days in the months `1, …, m-1` of year `y`. -/
def daysBeforeMonth (y : ℕ) : ℕ → ℕ
  | 0 => 0
  | m + 1 => daysBeforeMonth y m + daysInMonth y m

/-- Proleptic-Gregorian day number of the civil date `y-m-d` (month 1-based). -/
def toEpochDay (y m d : ℕ) : ℕ :=
  daysBeforeYear y + daysBeforeMonth y m + (d - 1)

/-- Day number produced by `dueDate = new Date(start); dueDate.setMonth(start.getMonth() + k)`:
the 0-based month index `(m-1)+k` is normalised into a year/month pair and the
day-of-month is re-applied, overflowing days rolling into the next month. -/
def jsAddMonths (y m d : ℕ) (k : ℕ) : ℕ :=
  let M := (m - 1) + k
  toEpochDay (y + M / 12) (M % 12 + 1) 1 + (d - 1)

/-- Input record of `calculateEMISchedule` (client/src/lib/financial-calculations.ts).
The start date is carried as a civil `year/month/day` triple. -/
structure EMICalculationParams where
  principal : ℚ
  interestRate : ℚ
  tenure : ℤ
  interestType : String
  startYear : ℕ
  startMonth : ℕ
  startDay : ℕ
  frequency : String

/-- One row of the produced schedule; `dueDate` is the epoch-day number of the
ISO date string the source stores. -/
structure EMIScheduleItem where
  installmentNumber : ℕ
  dueDate : ℕ
  emiAmount : ℤ
  principalAmount : ℤ
  interestAmount : ℤ
  outstandingBalance : ℤ
deriving DecidableEq

/-- `calculateReducingBalanceEMI` from the source: annuity EMI, or a plain
division when the monthly rate is zero. -/
def calculateReducingBalanceEMI (principal monthlyRate : ℚ) (tenure : ℤ) : ℚ :=
  if monthlyRate = 0 then principal / (tenure : ℚ)
  else principal * monthlyRate * (1 + monthlyRate) ^ tenure /
        ((1 + monthlyRate) ^ tenure - 1)

/-- Loop body of the flat branch of `calculateEMISchedule`: `k` iterations left,
`i` iterations done, `outstanding` the running outstanding principal. -/
def flatGo (emiAmount principalPerEmi interestPerEmi : ℚ) (y m d : ℕ) :
    ℕ → ℕ → ℚ → List EMIScheduleItem
  | 0, _, _ => []
  | k + 1, i, outstanding =>
      let out2 := outstanding - principalPerEmi
      { installmentNumber := i + 1
        dueDate := jsAddMonths y m d (i + 1)
        emiAmount := jsRound emiAmount
        principalAmount := jsRound principalPerEmi
        interestAmount := jsRound interestPerEmi
        outstandingBalance := jsRound (max 0 out2) } ::
        flatGo emiAmount principalPerEmi interestPerEmi y m d k (i + 1) out2

/-- Loop body of the reducing branch of `calculateEMISchedule`. -/
def reducingGo (r emiAmount : ℚ) (y m d : ℕ) :
    ℕ → ℕ → ℚ → List EMIScheduleItem
  | 0, _, _ => []
  | k + 1, i, outstanding =>
      let interestAmount := outstanding * r
      let principalAmount := emiAmount - interestAmount
      let out2 := outstanding - principalAmount
      { installmentNumber := i + 1
        dueDate := jsAddMonths y m d (i + 1)
        emiAmount := jsRound emiAmount
        principalAmount := jsRound principalAmount
        interestAmount := jsRound interestAmount
        outstandingBalance := jsRound (max 0 out2) } ::
        reducingGo r emiAmount y m d k (i + 1) out2

/-- `calculateEMISchedule` from client/src/lib/financial-calculations.ts.
The `for` loops run `tenure` times (`tenure.toNat` iterations for an integer
`tenure`, none when it is non-positive); note the source destructures
`frequency` but never uses it, and treats every interest type other than
`"flat"` in the `else` (reducing) branch. -/
def calculateEMISchedule (p : EMICalculationParams) : List EMIScheduleItem :=
  let monthlyRate := p.interestRate / (12 * 100)
  if p.interestType = "flat" then
    let totalInterest := p.principal * p.interestRate * (p.tenure : ℚ) / (12 * 100)
    let emiAmount := (p.principal + totalInterest) / (p.tenure : ℚ)
    let interestPerEmi := totalInterest / (p.tenure : ℚ)
    let principalPerEmi := p.principal / (p.tenure : ℚ)
    flatGo emiAmount principalPerEmi interestPerEmi
      p.startYear p.startMonth p.startDay p.tenure.toNat 0 p.principal
  else
    let emiAmount := calculateReducingBalanceEMI p.principal monthlyRate p.tenure
    reducingGo monthlyRate emiAmount
      p.startYear p.startMonth p.startDay p.tenure.toNat 0 p.principal

/-- `calculatePenalty` from the source.  Timestamps are milliseconds; `nowMs`
stands for the `new Date()` the source reads, `dueDateMs` for the parsed due
date.  `Math.floor` of the day quotient is `Int.fdiv`. -/
def calculatePenalty (emiAmount : ℚ) (dueDateMs : ℤ) (gracePeriod : ℤ)
    (penaltyRate : ℚ) (nowMs : ℤ) : ℤ :=
  let gracePeriodEnd := dueDateMs + gracePeriod * 86400000
  if nowMs ≤ gracePeriodEnd then 0
  else
    let overdueDays := (nowMs - gracePeriodEnd).fdiv 86400000
    jsRound (emiAmount * penaltyRate * (overdueDays : ℚ) / 100)

/-! ### Ledger poster (server storage layer, `createLoanDisbursementEntry`,
`createPaymentAccountingEntries`, `updateAccountBalances`) -/

/-- A journal-entry line as inserted into `journalEntryLines`. -/
structure JournalLine where
  accountId : ℕ
  debitAmount : ℚ
  creditAmount : ℚ
  description : String
deriving DecidableEq

/-- The journal-entry header fields the claims speak about. -/
structure JournalEntryRec where
  reference : String
  description : String
  totalAmount : ℚ
deriving DecidableEq

/-- The loan fields read by the disbursement poster. -/
structure Loan where
  loanId : String
  principalAmount : ℚ

/-- Ledger state: account balances (id, balance) and the append-only journal. -/
structure LedgerState where
  accounts : List (ℕ × ℚ)
  entries : List (JournalEntryRec × List JournalLine)
deriving DecidableEq

/-- Balance of account `id` (0 when absent). -/
def getBalance (accounts : List (ℕ × ℚ)) (id : ℕ) : ℚ :=
  ((accounts.find? (fun a => a.1 = id)).map (fun a => a.2)).getD 0

/-- `updateAccountBalances`: per line, add `debit − credit` to the balance of
the referenced account. -/
def updateAccountBalances (accounts : List (ℕ × ℚ)) (lines : List JournalLine) :
    List (ℕ × ℚ) :=
  lines.foldl
    (fun accs line =>
      accs.map (fun a =>
        if a.1 = line.accountId then (a.1, a.2 + (line.debitAmount - line.creditAmount))
        else a))
    accounts

/-- The two lines produced by `createLoanDisbursementEntry`:
debit account 2 (Loan Receivable) and credit account 1 (Cash & Bank) by the
principal. -/
def createLoanDisbursementEntryLines (loan : Loan) : List JournalLine :=
  [ { accountId := 2
      debitAmount := loan.principalAmount
      creditAmount := 0
      description := "Loan disbursed to customer" },
    { accountId := 1
      debitAmount := 0
      creditAmount := loan.principalAmount
      description := "Cash disbursed for loan " ++ loan.loanId } ]

/-- `createLoanDisbursementEntry`: appends the journal entry and its two lines.
The source does NOT call `updateAccountBalances` here, so account balances are
left untouched. -/
def createLoanDisbursementEntry (st : LedgerState) (loan : Loan) : LedgerState :=
  { st with
    entries := st.entries ++
      [( { reference := loan.loanId
           description := "Loan Disbursement - " ++ loan.loanId
           totalAmount := loan.principalAmount },
         createLoanDisbursementEntryLines loan )] }

/-- The installment fields read by the payment poster to split the payment. -/
structure EMIRecord where
  emiAmount : ℚ
  principalAmount : ℚ
  interestAmount : ℚ

/-- The three lines produced by `createPaymentAccountingEntries`: debit Cash
(account 1) by the full amount; credit Loan Receivable (account 2) and
Interest Income (account 3) using the matched installment's component ratios,
or the default 0.7 / 0.3 split when no installment is matched. -/
def createPaymentAccountingEntryLines (amount : ℚ) (customerName : String)
    (emi : Option EMIRecord) : List JournalLine :=
  let principalSplit := match emi with
    | none => (7 : ℚ) / 10
    | some e => e.principalAmount / e.emiAmount
  let interestSplit := match emi with
    | none => (3 : ℚ) / 10
    | some e => e.interestAmount / e.emiAmount
  [ { accountId := 1
      debitAmount := amount
      creditAmount := 0
      description := "Cash received from " ++ customerName },
    { accountId := 2
      debitAmount := 0
      creditAmount := amount * principalSplit
      description := "Principal payment from " ++ customerName },
    { accountId := 3
      debitAmount := 0
      creditAmount := amount * interestSplit
      description := "Interest payment from " ++ customerName } ]

/-- Sum of the debit amounts of a line set. -/
def sumDebits (lines : List JournalLine) : ℚ :=
  (lines.map (fun l => l.debitAmount)).sum

/-- Sum of the credit amounts of a line set. -/
def sumCredits (lines : List JournalLine) : ℚ :=
  (lines.map (fun l => l.creditAmount)).sum

/-! ### Batch penalty recalculation (`calculateAndUpdatePenalties`) -/

/-- One `emi_schedule` row joined with its loan's grace period, as read by the
batch job. `dueDate` is an epoch-day number. -/
structure PenaltyEMIRow where
  status : String
  dueDate : ℕ
  emiAmount : ℚ
  penaltyAmount : ℚ
  totalAmount : ℚ
  gracePeriod : ℤ
deriving DecidableEq

/-- The per-row action of `calculateAndUpdatePenalties` run at day `today`:
rows with status `"unpaid"` and a due date strictly before today are selected;
a positive recomputed penalty overwrites `penaltyAmount`, sets
`totalAmount = emiAmount + penalty` and moves the status to `"overdue"`. -/
def penaltyRunStep (today : ℕ) (row : PenaltyEMIRow) : PenaltyEMIRow :=
  if row.status = "unpaid" ∧ row.dueDate < today then
    let penalty := calculatePenalty row.emiAmount ((86400000 * row.dueDate : ℕ) : ℤ)
      row.gracePeriod 2 ((86400000 * today : ℕ) : ℤ)
    if 0 < penalty then
      { row with
        penaltyAmount := (penalty : ℚ)
        totalAmount := row.emiAmount + (penalty : ℚ)
        status := "overdue" }
    else row
  else row

/-- `calculateAndUpdatePenalties` over a table of rows. -/
def calculateAndUpdatePenalties (today : ℕ) (rows : List PenaltyEMIRow) :
    List PenaltyEMIRow :=
  rows.map (penaltyRunStep today)

/-! ### Payment recording (`createPayment` / `updateEMIStatus`) -/

/-- The installment fields `createPayment` updates through `updateEMIStatus`. -/
structure EMIScheduleRow where
  paidAmount : ℚ
  totalAmount : ℚ
  status : String
  paidDate : Option ℕ
deriving DecidableEq

/-- The installment update performed by `createPayment` when the payment
references an installment: accumulate the paid amount, set the paid date, and
set status `"paid"` when the accumulated amount covers the total, else
`"partial"`. -/
def applyPaymentToEMI (emi : EMIScheduleRow) (amount : ℚ) (now : ℕ) :
    EMIScheduleRow :=
  let paidAmount := emi.paidAmount + amount
  let status := if paidAmount ≥ emi.totalAmount then "paid" else "partial"
  { emi with status := status, paidAmount := paidAmount, paidDate := some now }

/-! ### Spec-side definitions (stated from the specification's wording, for
comparison against the source embedding) -/

/-- Iterated outstanding balance of the source's reducing loop: each step
subtracts the principal component `emi − balance·r`. -/
def reduceBal (r emi b : ℚ) : ℕ → ℚ
  | 0 => b
  | k + 1 => reduceBal r emi b k - (emi - reduceBal r emi b k * r)

/-- The specification's outstanding-balance recurrence for the reducing
method: the balance is decreased by the principal component and floored at
zero. -/
def specOutstanding (P r emi : ℚ) : ℕ → ℚ
  | 0 => P
  | k + 1 =>
      max 0 (specOutstanding P r emi k - (emi - specOutstanding P r emi k * r))

/-- The specification's reducing-balance EMI formula: `P / t` when the monthly
rate is zero, otherwise the amortized-annuity formula. -/
def specReducingEMI (P r : ℚ) (t : ℤ) : ℚ :=
  if r = 0 then P / (t : ℚ)
  else P * r * (1 + r) ^ t / ((1 + r) ^ t - 1)

/-! ## Helper lemmas about the schedule loops -/

lemma jsBound_floor_le (x : ℚ) : ((jsRound x : ℤ) : ℚ) ≤ x + 1 / 2 :=
  Int.floor_le _

lemma jsRound_err (x : ℚ) : |((jsRound x : ℤ) : ℚ) - x| ≤ 1 / 2 := by
  rw [abs_le]
  have h1 : ((jsRound x : ℤ) : ℚ) ≤ x + 1 / 2 := Int.floor_le _
  have h2 : x + 1 / 2 < ((jsRound x : ℤ) : ℚ) + 1 := Int.lt_floor_add_one _
  constructor <;> linarith

lemma reduceBal_shift (r emi b : ℚ) :
    ∀ j, reduceBal r emi (b - (emi - b * r)) j = reduceBal r emi b (j + 1)
  | 0 => rfl
  | j + 1 => by
      rw [reduceBal, reduceBal_shift r emi b j]
      rfl

lemma flatGo_length (e pp ip : ℚ) (y m d : ℕ) :
    ∀ (k i : ℕ) (b : ℚ), (flatGo e pp ip y m d k i b).length = k
  | 0, _, _ => rfl
  | k + 1, i, b => by
      rw [flatGo]
      simp [flatGo_length e pp ip y m d k]

lemma reducingGo_length (r emi : ℚ) (y m d : ℕ) :
    ∀ (k i : ℕ) (b : ℚ), (reducingGo r emi y m d k i b).length = k
  | 0, _, _ => rfl
  | k + 1, i, b => by
      rw [reducingGo]
      simp [reducingGo_length r emi y m d k]

lemma flatGo_mem_fields (e pp ip : ℚ) (y m d : ℕ) :
    ∀ (k i : ℕ) (b : ℚ), ∀ it ∈ flatGo e pp ip y m d k i b,
      it.emiAmount = jsRound e ∧ it.principalAmount = jsRound pp ∧
        it.interestAmount = jsRound ip
  | 0, _, _ => by simp [flatGo]
  | k + 1, i, b => by
      rw [flatGo]
      intro it hit
      rcases List.mem_cons.mp hit with h | h
      · subst h
        exact ⟨rfl, rfl, rfl⟩
      · exact flatGo_mem_fields e pp ip y m d k (i + 1) (b - pp) it h

lemma flatGo_map_principal (e pp ip : ℚ) (y m d : ℕ) :
    ∀ (k i : ℕ) (b : ℚ),
      (flatGo e pp ip y m d k i b).map (fun it => it.principalAmount) =
        List.replicate k (jsRound pp)
  | 0, _, _ => rfl
  | k + 1, i, b => by
      rw [flatGo, List.replicate_succ]
      simp [flatGo_map_principal e pp ip y m d k]

lemma reducingGo_map_principal (r emi : ℚ) (y m d : ℕ) :
    ∀ (k i : ℕ) (b : ℚ),
      (reducingGo r emi y m d k i b).map (fun it => it.principalAmount) =
        (List.range k).map (fun j => jsRound (emi - reduceBal r emi b j * r))
  | 0, _, _ => rfl
  | k + 1, i, b => by
      rw [reducingGo, List.range_succ_eq_map]
      simp only [List.map_cons, List.map_map]
      rw [reducingGo_map_principal r emi y m d k (i + 1) (b - (emi - b * r))]
      have hf : (fun j => jsRound (emi - reduceBal r emi (b - (emi - b * r)) j * r)) =
          (fun j => jsRound (emi - reduceBal r emi b (j + 1) * r)) := by
        funext j
        rw [reduceBal_shift]
      rw [hf]
      rfl

lemma reducingGo_getElem (r emi : ℚ) (y m d : ℕ) :
    ∀ (k j i : ℕ) (b : ℚ), j < k →
      (reducingGo r emi y m d k i b)[j]? = some
        { installmentNumber := i + j + 1
          dueDate := jsAddMonths y m d (i + j + 1)
          emiAmount := jsRound emi
          principalAmount := jsRound (emi - reduceBal r emi b j * r)
          interestAmount := jsRound (reduceBal r emi b j * r)
          outstandingBalance := jsRound (max 0 (reduceBal r emi b (j + 1))) }
  | 0, j, _, _ => by omega
  | k + 1, 0, i, b => by
      intro _
      simp [reducingGo, reduceBal]
  | k + 1, j + 1, i, b => by
      intro hj
      rw [reducingGo]
      simp only [List.getElem?_cons_succ]
      rw [reducingGo_getElem r emi y m d k j (i + 1) (b - (emi - b * r)) (by omega)]
      simp only [reduceBal_shift, Nat.succ_add, Nat.add_succ]

lemma range_sum_sub (g : ℕ → ℚ) :
    ∀ n, ((List.range n).map (fun j => g j - g (j + 1))).sum = g 0 - g n
  | 0 => by simp
  | n + 1 => by
      rw [List.range_succ]
      simp only [List.map_append, List.sum_append, List.map_cons, List.map_nil,
        List.sum_cons, List.sum_nil]
      rw [range_sum_sub g n]
      ring

lemma sum_round_err (f : ℕ → ℚ) :
    ∀ n, |(((List.range n).map (fun j => ((jsRound (f j) : ℤ) : ℚ))).sum) -
        ((List.range n).map f).sum| ≤ (n : ℚ) / 2
  | 0 => by simp
  | n + 1 => by
      rw [List.range_succ]
      simp only [List.map_append, List.sum_append, List.map_cons, List.map_nil,
        List.sum_cons, List.sum_nil]
      have h1 := sum_round_err f n
      have h2 := jsRound_err (f n)
      have h3 : ((n : ℚ) + 1) / 2 = (n : ℚ) / 2 + 1 / 2 := by ring
      push_cast
      rw [h3]
      calc |((List.range n).map (fun j => ((jsRound (f j) : ℤ) : ℚ))).sum +
              (((jsRound (f n) : ℤ) : ℚ) + 0) -
              (((List.range n).map f).sum + (f n + 0))|
          = |(((List.range n).map (fun j => ((jsRound (f j) : ℤ) : ℚ))).sum -
              ((List.range n).map f).sum) + (((jsRound (f n) : ℤ) : ℚ) - f n)| := by
            ring_nf
        _ ≤ _ := by
            refine le_trans (abs_add _ _) ?_
            linarith

lemma reduceBal_zero_rate (c b : ℚ) : ∀ k, reduceBal 0 c b k = b - (k : ℚ) * c
  | 0 => by simp [reduceBal]
  | k + 1 => by
      rw [reduceBal, reduceBal_zero_rate c b k]
      push_cast
      ring

lemma reduceBal_closed (P r : ℚ) (n : ℕ) (hq : (1 + r) ^ n - 1 ≠ 0) :
    ∀ k, reduceBal r (P * r * (1 + r) ^ n / ((1 + r) ^ n - 1)) P k =
      P * ((1 + r) ^ n - (1 + r) ^ k) / ((1 + r) ^ n - 1)
  | 0 => by
      rw [reduceBal]
      field_simp
  | k + 1 => by
      rw [reduceBal, reduceBal_closed P r n hq k, pow_succ]
      field_simp
      ring

lemma specOutstanding_eq_reduceBal (P r emi : ℚ) (N : ℕ)
    (h : ∀ k, k ≤ N → 0 ≤ reduceBal r emi P k) :
    ∀ k, k ≤ N → specOutstanding P r emi k = reduceBal r emi P k
  | 0, _ => rfl
  | k + 1, hk => by
      rw [specOutstanding,
        specOutstanding_eq_reduceBal P r emi N h k (Nat.le_of_succ_le hk)]
      exact max_eq_right (h (k + 1) hk)

/-- The source's reducing-balance EMI agrees with the specification's
formula. -/
lemma calculateReducingBalanceEMI_eq_spec (P r : ℚ) (t : ℤ) :
    calculateReducingBalanceEMI P r t = specReducingEMI P r t := rfl

lemma flatGo_map_emi (e pp ip : ℚ) (y m d : ℕ) :
    ∀ (k i : ℕ) (b : ℚ),
      (flatGo e pp ip y m d k i b).map (fun it => it.emiAmount) =
        List.replicate k (jsRound e)
  | 0, _, _ => rfl
  | k + 1, i, b => by
      rw [flatGo, List.replicate_succ]
      simp [flatGo_map_emi e pp ip y m d k]

lemma flatGo_map_interest (e pp ip : ℚ) (y m d : ℕ) :
    ∀ (k i : ℕ) (b : ℚ),
      (flatGo e pp ip y m d k i b).map (fun it => it.interestAmount) =
        List.replicate k (jsRound ip)
  | 0, _, _ => rfl
  | k + 1, i, b => by
      rw [flatGo, List.replicate_succ]
      simp [flatGo_map_interest e pp ip y m d k]

lemma reduceBal_nonneg_pos (P r : ℚ) (n : ℕ) (hP : 0 < P) (hr : 0 < r)
    (hn : n ≠ 0) :
    ∀ k, k ≤ n → 0 ≤ reduceBal r (P * r * (1 + r) ^ n / ((1 + r) ^ n - 1)) P k := by
  have h1 : (1 : ℚ) < 1 + r := by linarith
  have hq : 1 < (1 + r) ^ n := one_lt_pow₀ h1 hn
  have hqne : (1 + r) ^ n - 1 ≠ 0 := ne_of_gt (by linarith)
  intro k hk
  rw [reduceBal_closed P r n hqne k]
  have hpow : (1 + r) ^ k ≤ (1 + r) ^ n := pow_le_pow_right₀ h1.le hk
  exact div_nonneg (mul_nonneg hP.le (by linarith)) (by linarith)

lemma reduceBal_final_zero (P r : ℚ) (n : ℕ) (hr : 0 < r) (hn : n ≠ 0) :
    reduceBal r (P * r * (1 + r) ^ n / ((1 + r) ^ n - 1)) P n = 0 := by
  have h1 : (1 : ℚ) < 1 + r := by linarith
  have hq : 1 < (1 + r) ^ n := one_lt_pow₀ h1 hn
  have hqne : (1 + r) ^ n - 1 ≠ 0 := ne_of_gt (by linarith)
  rw [reduceBal_closed P r n hqne n]
  simp

lemma reduceBal_nonneg_zero_rate (P : ℚ) (n : ℕ) (hP : 0 < P) (hn : n ≠ 0) :
    ∀ k, k ≤ n → 0 ≤ reduceBal 0 (P / (n : ℚ)) P k := by
  intro k hk
  rw [reduceBal_zero_rate]
  have hnQ : (0 : ℚ) < (n : ℚ) := by exact_mod_cast Nat.pos_of_ne_zero hn
  have hkQ : (k : ℚ) ≤ (n : ℚ) := by exact_mod_cast hk
  have heq : P - (k : ℚ) * (P / (n : ℚ)) = P * ((n : ℚ) - (k : ℚ)) / (n : ℚ) := by
    field_simp
    ring
  rw [heq]
  exact div_nonneg (mul_nonneg hP.le (by linarith)) hnQ.le

/-- For a positive integer tenure the source's EMI (stated with an integer
exponent, as `Math.pow` receives it) can be read with a natural exponent. -/
lemma calculateReducingBalanceEMI_toNat (P r : ℚ) (t : ℤ) (ht : 1 ≤ t) :
    calculateReducingBalanceEMI P r t =
      if r = 0 then P / ((t.toNat : ℕ) : ℚ)
      else P * r * (1 + r) ^ t.toNat / ((1 + r) ^ t.toNat - 1) := by
  have h1 : ((t.toNat : ℕ) : ℚ) = (t : ℚ) := by
    exact_mod_cast congrArg (fun z : ℤ => (z : ℚ)) (Int.toNat_of_nonneg (by omega))
  have h2 : (1 + r) ^ t = (1 + r) ^ t.toNat := by
    rw [show t = ((t.toNat : ℕ) : ℤ) from (Int.toNat_of_nonneg (by omega)).symm]
    exact zpow_natCast _ _
  rw [calculateReducingBalanceEMI, h1, h2]

/-- Exact principal components of the reducing loop sum to the principal. -/
lemma reducing_sum_eq_P (P r emi : ℚ) (n : ℕ) (hP : 0 < P) (hn : n ≠ 0)
    (hr : 0 ≤ r)
    (hemi0 : r = 0 → emi = P / (n : ℚ))
    (hemi1 : r ≠ 0 → emi = P * r * (1 + r) ^ n / ((1 + r) ^ n - 1)) :
    ((List.range n).map (fun j => emi - reduceBal r emi P j * r)).sum = P := by
  rcases eq_or_lt_of_le hr with h0 | hpos
  · have hr0 : r = 0 := h0.symm
    subst hr0
    have he := hemi0 rfl
    have hf : (fun j => emi - reduceBal 0 emi P j * 0) = fun _ : ℕ => emi := by
      funext j
      ring
    rw [hf, List.map_const', List.sum_replicate, List.length_range, nsmul_eq_mul, he]
    have hnQ : ((n : ℕ) : ℚ) ≠ 0 := by
      exact_mod_cast Nat.pos_of_ne_zero hn |>.ne'
    field_simp
  · have he := hemi1 (ne_of_gt hpos)
    have hfn : (fun j => emi - reduceBal r emi P j * r) =
        (fun j => reduceBal r emi P j - reduceBal r emi P (j + 1)) := by
      funext j
      conv_rhs => rw [reduceBal]
      ring
    rw [hfn, range_sum_sub]
    have hz : reduceBal r emi P n = 0 := by
      rw [he]
      exact reduceBal_final_zero P r n hpos hn
    rw [show reduceBal r emi P 0 = P from rfl, hz, sub_zero]

/-! ## Theorems -/

/-- C4: `computePenalty` returns exactly zero for every as-of instant on or
before `dueDate + gracePeriodDays` (boundary inclusive), and otherwise returns
`round(emiAmount · dailyPenaltyRatePercent · overdueDays / 100)` where
`overdueDays` is the floor of the whole days between the grace-period end and
the as-of instant; in particular for due date 2024-01-01, grace 5 days, daily
rate 2 %, EMI 10000 the penalty is 0 on 2024-01-04 and 800 on 2024-01-10. -/
theorem penalty_grace_and_formula :
    (∀ (e r : ℚ) (dd g a : ℤ), a ≤ dd + g * 86400000 →
      calculatePenalty e dd g r a = 0)
    ∧ (∀ (e r : ℚ) (dd g a : ℤ), dd + g * 86400000 < a →
      calculatePenalty e dd g r a =
        jsRound (e * r * (((a - (dd + g * 86400000)).fdiv 86400000 : ℤ) : ℚ) / 100))
    ∧ calculatePenalty 10000 ((86400000 * toEpochDay 2024 1 1 : ℕ) : ℤ) 5 2
        ((86400000 * toEpochDay 2024 1 4 : ℕ) : ℤ) = 0
    ∧ calculatePenalty 10000 ((86400000 * toEpochDay 2024 1 1 : ℕ) : ℤ) 5 2
        ((86400000 * toEpochDay 2024 1 10 : ℕ) : ℤ) = 800 := by
  have h1 : ∀ (e r : ℚ) (dd g a : ℤ), a ≤ dd + g * 86400000 →
      calculatePenalty e dd g r a = 0 := by
    intro e r dd g a h
    simp only [calculatePenalty]
    rw [if_pos h]
  have h2 : ∀ (e r : ℚ) (dd g a : ℤ), dd + g * 86400000 < a →
      calculatePenalty e dd g r a =
        jsRound (e * r * (((a - (dd + g * 86400000)).fdiv 86400000 : ℤ) : ℚ) / 100) := by
    intro e r dd g a h
    simp only [calculatePenalty]
    rw [if_neg (not_le.mpr h)]
  refine ⟨h1, h2, h1 _ _ _ _ _ (by decide), ?_⟩
  rw [h2 _ _ _ _ _ (by decide)]
  have hdays : ((((86400000 * toEpochDay 2024 1 10 : ℕ) : ℤ) -
      (((86400000 * toEpochDay 2024 1 1 : ℕ) : ℤ) + 5 * 86400000)).fdiv 86400000) = 4 := by
    decide
  rw [hdays]
  rw [show ((4 : ℤ) : ℚ) = 4 from by norm_num]
  norm_num [jsRound]

/-- Witness for C4 at a concrete input within the grace window. -/
theorem penalty_grace_and_formula_witness :
    calculatePenalty 10000 0 5 2 0 = 0 :=
  penalty_grace_and_formula.1 10000 2 0 5 0 (by decide)

/-- C9: the batch penalty recalculation is idempotent — a second run at the
same as-of day leaves every row (penalty amount, total amount, status)
unchanged, because the penalty is recomputed from the original due date and
the rows moved to `"overdue"` are no longer selected. -/
theorem penalty_accrual_idempotent (today : ℕ) (rows : List PenaltyEMIRow) :
    calculateAndUpdatePenalties today (calculateAndUpdatePenalties today rows) =
      calculateAndUpdatePenalties today rows := by
  have hstep : ∀ row : PenaltyEMIRow,
      penaltyRunStep today (penaltyRunStep today row) = penaltyRunStep today row := by
    intro row
    by_cases h : row.status = "unpaid" ∧ row.dueDate < today
    · by_cases hp : 0 < calculatePenalty row.emiAmount
          ((86400000 * row.dueDate : ℕ) : ℤ) row.gracePeriod 2
          ((86400000 * today : ℕ) : ℤ)
      · have e1 : penaltyRunStep today row =
            { row with
              penaltyAmount := ((calculatePenalty row.emiAmount
                ((86400000 * row.dueDate : ℕ) : ℤ) row.gracePeriod 2
                ((86400000 * today : ℕ) : ℤ) : ℤ) : ℚ)
              totalAmount := row.emiAmount + ((calculatePenalty row.emiAmount
                ((86400000 * row.dueDate : ℕ) : ℤ) row.gracePeriod 2
                ((86400000 * today : ℕ) : ℤ) : ℤ) : ℚ)
              status := "overdue" } := by
          simp only [penaltyRunStep, if_pos h]
          rw [if_pos hp]
        rw [e1]
        simp only [penaltyRunStep]
        rw [if_neg (fun hc => absurd hc.1 (by simp))]
      · have e1 : penaltyRunStep today row = row := by
          simp only [penaltyRunStep, if_pos h]
          rw [if_neg hp]
        rw [e1, e1]
    · have e1 : penaltyRunStep today row = row := by
        rw [penaltyRunStep, if_neg h]
      rw [e1, e1]
  simp only [calculateAndUpdatePenalties, List.map_map]
  induction rows with
  | nil => rfl
  | cons r rs ih =>
      simp only [List.map_cons, Function.comp_apply, hstep, List.map_map] at *
      rw [ih]

/-- C10: recording a payment against an installment accumulates the paid
amount, sets the paid date, and sets the status to `"paid"` exactly when the
accumulated paid amount reaches the total amount, `"partial"` otherwise —
regardless of the previous status. -/
theorem payment_updates_installment (emi : EMIScheduleRow) (amount : ℚ) (now : ℕ) :
    (applyPaymentToEMI emi amount now).paidAmount = emi.paidAmount + amount
    ∧ (applyPaymentToEMI emi amount now).paidDate = some now
    ∧ ((applyPaymentToEMI emi amount now).status = "paid" ↔
        emi.totalAmount ≤ emi.paidAmount + amount)
    ∧ ((applyPaymentToEMI emi amount now).status = "partial" ↔
        ¬ emi.totalAmount ≤ emi.paidAmount + amount) := by
  refine ⟨rfl, rfl, ?_, ?_⟩ <;>
    · simp only [applyPaymentToEMI, ge_iff_le]
      by_cases h : emi.totalAmount ≤ emi.paidAmount + amount <;>
        simp [h]

/-- C1 (counterexample): the claim "every entry constructed by the ledger
poster balances, and this is verified at construction" is false — the payment
poster splits the payment by the stored installment component ratios, and the
flat schedule for principal 30, rate 100 %, tenure 4 stores components
(EMI 10, principal 8, interest 3) whose rounded parts exceed the EMI, so
posting a payment of 10 against it commits an entry with debits 10 but
credits 11, with no balance check anywhere. -/
theorem payment_entry_unbalanced_cex :
    ((calculateEMISchedule ⟨30, 100, 4, "flat", 2024, 1, 1, "monthly"⟩).head?.map
      (fun it => (it.emiAmount, it.principalAmount, it.interestAmount)) =
        some (10, 8, 3))
    ∧ sumDebits (createPaymentAccountingEntryLines 10 "Rajesh Kumar Singh"
        (some ⟨10, 8, 3⟩)) = 10
    ∧ sumCredits (createPaymentAccountingEntryLines 10 "Rajesh Kumar Singh"
        (some ⟨10, 8, 3⟩)) = 11 := by
  refine ⟨?_, ?_, ?_⟩
  · simp only [calculateEMISchedule, if_pos rfl, Int.toNat_ofNat, flatGo,
      List.head?_cons, Option.map_some]
    norm_num [jsRound, Int.floor_eq_iff]
  · simp [sumDebits, createPaymentAccountingEntryLines]
  · simp only [sumCredits, createPaymentAccountingEntryLines, List.map_cons,
      List.map_nil, List.sum_cons, List.sum_nil]
    norm_num

/-- C1 (amended): the disbursement posting always produces a balanced entry,
and the payment posting produces a balanced entry when no installment is
matched (default 0.7/0.3 split) or when the matched installment's principal
and interest components sum exactly to its EMI amount; no balance check is
performed at construction time. -/
theorem ledger_poster_balance :
    (∀ loan : Loan, sumDebits (createLoanDisbursementEntryLines loan) =
      sumCredits (createLoanDisbursementEntryLines loan))
    ∧ (∀ (amount : ℚ) (name : String),
      sumDebits (createPaymentAccountingEntryLines amount name none) =
        sumCredits (createPaymentAccountingEntryLines amount name none))
    ∧ (∀ (amount : ℚ) (name : String) (e : EMIRecord), e.emiAmount ≠ 0 →
      e.principalAmount + e.interestAmount = e.emiAmount →
      sumDebits (createPaymentAccountingEntryLines amount name (some e)) =
        sumCredits (createPaymentAccountingEntryLines amount name (some e))) := by
  refine ⟨?_, ?_, ?_⟩
  · intro loan
    simp [sumDebits, sumCredits, createLoanDisbursementEntryLines]
  · intro amount name
    simp only [sumDebits, sumCredits, createPaymentAccountingEntryLines,
      List.map_cons, List.map_nil, List.sum_cons, List.sum_nil]
    ring
  · intro amount name e he hsum
    simp only [sumDebits, sumCredits, createPaymentAccountingEntryLines,
      List.map_cons, List.map_nil, List.sum_cons, List.sum_nil]
    field_simp
    linear_combination amount * hsum.symm

/-- Witness for C1 (amended), at the specification's scenario: a payment of
8500 split against an installment with EMI 8500 = 7000 principal + 1500
interest balances. -/
theorem ledger_poster_balance_witness :
    sumDebits (createPaymentAccountingEntryLines 8500 "Priya Singh"
      (some ⟨8500, 7000, 1500⟩)) =
    sumCredits (createPaymentAccountingEntryLines 8500 "Priya Singh"
      (some ⟨8500, 7000, 1500⟩)) :=
  ledger_poster_balance.2.2 8500 "Priya Singh" ⟨8500, 7000, 1500⟩
    (by norm_num) (by norm_num)

/-- C7 (counterexample): the claim that after the disbursement posting the two
account balances have shifted by the principal in opposite directions is
false — `createLoanDisbursementEntry` never updates account balances, so for a
ledger holding Cash (account 1) at 1000000 and Loan Receivable (account 2) at
0, posting a disbursement of 250000 leaves both balances unchanged. -/
theorem disbursement_balances_unchanged_cex :
    getBalance (createLoanDisbursementEntry
      ⟨[(1, 1000000), (2, 0)], []⟩ ⟨"LN001", 250000⟩).accounts 1 =
        getBalance [(1, 1000000), (2, 0)] 1
    ∧ getBalance (createLoanDisbursementEntry
      ⟨[(1, 1000000), (2, 0)], []⟩ ⟨"LN001", 250000⟩).accounts 2 =
        getBalance [(1, 1000000), (2, 0)] 2
    ∧ ¬ getBalance (createLoanDisbursementEntry
      ⟨[(1, 1000000), (2, 0)], []⟩ ⟨"LN001", 250000⟩).accounts 1 =
        getBalance [(1, 1000000), (2, 0)] 1 - 250000 := by
  refine ⟨rfl, rfl, ?_⟩
  intro h
  rw [show (createLoanDisbursementEntry
      ⟨[(1, 1000000), (2, 0)], []⟩ ⟨"LN001", 250000⟩).accounts =
      [(1, 1000000), (2, 0)] from rfl] at h
  simp only [getBalance, List.find?] at h
  norm_num at h

/-- C7 (amended): posting a loan disbursement with principal `P` appends
exactly one journal entry with exactly two lines — a debit of `P` to Loan
Receivable (account 2) and a credit of `P` to Cash & Bank (account 1), the
entry description referencing the loan's business identifier — and leaves all
account balances unchanged (the source never applies the entry to the
balances). -/
theorem disbursement_entry_shape (st : LedgerState) (loan : Loan) :
    (createLoanDisbursementEntry st loan).accounts = st.accounts
    ∧ (createLoanDisbursementEntry st loan).entries = st.entries ++
        [( { reference := loan.loanId
             description := "Loan Disbursement - " ++ loan.loanId
             totalAmount := loan.principalAmount },
           createLoanDisbursementEntryLines loan )]
    ∧ createLoanDisbursementEntryLines loan =
        [ { accountId := 2
            debitAmount := loan.principalAmount
            creditAmount := 0
            description := "Loan disbursed to customer" },
          { accountId := 1
            debitAmount := 0
            creditAmount := loan.principalAmount
            description := "Cash disbursed for loan " ++ loan.loanId } ]
    ∧ sumDebits (createLoanDisbursementEntryLines loan) = loan.principalAmount
    ∧ sumCredits (createLoanDisbursementEntryLines loan) = loan.principalAmount := by
  refine ⟨rfl, rfl, rfl, ?_, ?_⟩ <;>
    simp [sumDebits, sumCredits, createLoanDisbursementEntryLines]

/-- C2: for every valid flat-interest input, every installment carries
EMI `round((P + P·rate·tenure/1200)/tenure)`, interest component
`round(P·rate·tenure/1200/tenure)` and principal component
`round(P/tenure)`, all constant across the schedule. -/
theorem flat_schedule_components (P r0 : ℚ) (t : ℤ) (y m d : ℕ) (freq : String)
    (hP : 0 < P) (ht : 1 ≤ t) (hr : 0 ≤ r0) :
    ∀ it ∈ calculateEMISchedule ⟨P, r0, t, "flat", y, m, d, freq⟩,
      it.emiAmount = jsRound ((P + P * r0 * (t : ℚ) / 1200) / (t : ℚ))
      ∧ it.interestAmount = jsRound (P * r0 * (t : ℚ) / 1200 / (t : ℚ))
      ∧ it.principalAmount = jsRound (P / (t : ℚ)) := by
  intro it hit
  have h1200 : (12 * 100 : ℚ) = 1200 := by norm_num
  rw [show calculateEMISchedule ⟨P, r0, t, "flat", y, m, d, freq⟩ =
      flatGo ((P + P * r0 * (t : ℚ) / (12 * 100)) / (t : ℚ)) (P / (t : ℚ))
        (P * r0 * (t : ℚ) / (12 * 100) / (t : ℚ)) y m d t.toNat 0 P from rfl,
    h1200] at hit
  obtain ⟨he, hi, hp⟩ := flatGo_mem_fields _ _ _ y m d t.toNat 0 P it hit
  exact ⟨he, hp, hi⟩

/-- Witness for C2 at the specification's scenario 1: principal 120000,
rate 12 %, tenure 12, flat — every EMI equals 11200 and the interest
components sum to 14400. -/
theorem flat_schedule_components_witness :
    (∀ it ∈ calculateEMISchedule ⟨120000, 12, 12, "flat", 2024, 1, 1, "monthly"⟩,
      it.emiAmount =
          jsRound ((120000 + 120000 * 12 * ((12 : ℤ) : ℚ) / 1200) / ((12 : ℤ) : ℚ))
      ∧ it.interestAmount =
          jsRound (120000 * 12 * ((12 : ℤ) : ℚ) / 1200 / ((12 : ℤ) : ℚ))
      ∧ it.principalAmount = jsRound (120000 / ((12 : ℤ) : ℚ)))
    ∧ (calculateEMISchedule ⟨120000, 12, 12, "flat", 2024, 1, 1, "monthly"⟩).map
        (fun it => it.emiAmount) = List.replicate 12 11200
    ∧ ((calculateEMISchedule ⟨120000, 12, 12, "flat", 2024, 1, 1, "monthly"⟩).map
        (fun it => it.interestAmount)).sum = 14400 := by
  refine ⟨flat_schedule_components 120000 12 12 2024 1 1 "monthly"
    (by norm_num) (by norm_num) (by norm_num), ?_, ?_⟩
  · rw [show calculateEMISchedule ⟨120000, 12, 12, "flat", 2024, 1, 1, "monthly"⟩ =
        flatGo ((120000 + 120000 * 12 * (((12 : ℤ) : ℚ)) / (12 * 100)) / (((12 : ℤ) : ℚ)))
          (120000 / (((12 : ℤ) : ℚ))) (120000 * 12 * (((12 : ℤ) : ℚ)) / (12 * 100) / (((12 : ℤ) : ℚ)))
          2024 1 1 (12 : ℤ).toNat 0 120000 from rfl]
    rw [flatGo_map_emi]
    have : jsRound ((120000 + 120000 * 12 * (((12 : ℤ) : ℚ)) / (12 * 100)) / (((12 : ℤ) : ℚ))) =
        11200 := by
      norm_num [jsRound]
    rw [this]
    rfl
  · rw [show calculateEMISchedule ⟨120000, 12, 12, "flat", 2024, 1, 1, "monthly"⟩ =
        flatGo ((120000 + 120000 * 12 * (((12 : ℤ) : ℚ)) / (12 * 100)) / (((12 : ℤ) : ℚ)))
          (120000 / (((12 : ℤ) : ℚ))) (120000 * 12 * (((12 : ℤ) : ℚ)) / (12 * 100) / (((12 : ℤ) : ℚ)))
          2024 1 1 (12 : ℤ).toNat 0 120000 from rfl]
    rw [flatGo_map_interest]
    have : jsRound (120000 * 12 * (((12 : ℤ) : ℚ)) / (12 * 100) / (((12 : ℤ) : ℚ))) = 1200 := by
      norm_num [jsRound]
    rw [this]
    rfl

/-- C5 (failing-input evaluation): with repayment frequency `"weekly"` the
source still spaces installments by calendar months — for a 2-installment loan
starting 2024-01-01 the due dates are 2024-02-01 and 2024-03-01, identical to
the `"monthly"` schedule and different from the claimed start + 7·i days. -/
theorem weekly_frequency_ignored :
    (calculateEMISchedule ⟨1000, 0, 2, "flat", 2024, 1, 1, "weekly"⟩).map
        (fun it => it.dueDate) =
      (calculateEMISchedule ⟨1000, 0, 2, "flat", 2024, 1, 1, "monthly"⟩).map
        (fun it => it.dueDate)
    ∧ (calculateEMISchedule ⟨1000, 0, 2, "flat", 2024, 1, 1, "weekly"⟩).map
        (fun it => it.dueDate) = [toEpochDay 2024 2 1, toEpochDay 2024 3 1]
    ∧ toEpochDay 2024 1 1 + 7 ≠ toEpochDay 2024 2 1
    ∧ toEpochDay 2024 1 1 + 14 ≠ toEpochDay 2024 3 1 := by
  exact ⟨by decide, by decide, by decide, by decide⟩

/-- C8 (counterexample): `computeSchedule` rejects nothing — an unrecognized
interest type, a zero principal and a negative principal all produce a full
12-installment schedule instead of failing. -/
theorem schedule_rejects_nothing_cex :
    (calculateEMISchedule ⟨1000, 12, 12, "not-an-enum-value", 2024, 1, 1, "monthly"⟩).length = 12
    ∧ (calculateEMISchedule ⟨0, 12, 12, "flat", 2024, 1, 1, "monthly"⟩).length = 12
    ∧ (calculateEMISchedule ⟨-5, 12, 12, "flat", 2024, 1, 1, "monthly"⟩).length = 12 := by
  refine ⟨?_, ?_, ?_⟩ <;> decide

/-- C8 (amended): `computeSchedule` performs no input validation and never
fails: it is total, returns `tenure` installments (none when the tenure is
zero or negative, rather than rejecting), treats every interest type other
than `"flat"` as reducing, and never inspects the frequency value. -/
theorem schedule_total_no_validation (p : EMICalculationParams) :
    (calculateEMISchedule p).length = p.tenure.toNat
    ∧ (p.tenure ≤ 0 → calculateEMISchedule p = [])
    ∧ (p.interestType ≠ "flat" →
        calculateEMISchedule p =
          calculateEMISchedule { p with interestType := "reducing" })
    ∧ (∀ f, calculateEMISchedule { p with frequency := f } =
        calculateEMISchedule p) := by
  refine ⟨?_, ?_, ?_, ?_⟩
  · simp only [calculateEMISchedule]
    split_ifs <;> simp [flatGo_length, reducingGo_length]
  · intro h
    have h0 : p.tenure.toNat = 0 := by omega
    simp only [calculateEMISchedule, h0]
    split_ifs <;> rfl
  · intro h
    cases p with
    | mk P r t ty y m d f =>
        simp only [calculateEMISchedule] at h ⊢
        rw [if_neg h, if_neg (by decide)]
  · intro f
    cases p
    rfl

/-- Witness for C8 (amended): a negative tenure yields the empty schedule. -/
theorem schedule_total_no_validation_witness :
    calculateEMISchedule ⟨1000, 12, -3, "flat", 2024, 1, 1, "monthly"⟩ = [] :=
  (schedule_total_no_validation ⟨1000, 12, -3, "flat", 2024, 1, 1, "monthly"⟩).2.1
    (by norm_num)

/-- C3: for every valid reducing-balance input, installment `j` (0-based) of
the schedule carries the constant EMI `round(specReducingEMI)` — `P/tenure`
when the monthly rate `r = rate/1200` is zero, else the annuity formula — an
interest component `round(balance·r)`, a principal component
`round(EMI − balance·r)`, and the next outstanding balance (decreased by the
principal component and floored at zero) as given by the specification's
recurrence `specOutstanding`. -/
theorem reducing_schedule_components (P r0 : ℚ) (t : ℤ) (y m d : ℕ)
    (freq : String) (hP : 0 < P) (ht : 1 ≤ t) (hr : 0 ≤ r0) :
    ∀ j < t.toNat,
      (calculateEMISchedule ⟨P, r0, t, "reducing", y, m, d, freq⟩)[j]? = some
        { installmentNumber := j + 1
          dueDate := jsAddMonths y m d (j + 1)
          emiAmount := jsRound (specReducingEMI P (r0 / 1200) t)
          principalAmount := jsRound (specReducingEMI P (r0 / 1200) t -
            specOutstanding P (r0 / 1200) (specReducingEMI P (r0 / 1200) t) j *
              (r0 / 1200))
          interestAmount := jsRound (specOutstanding P (r0 / 1200)
            (specReducingEMI P (r0 / 1200) t) j * (r0 / 1200))
          outstandingBalance := jsRound (specOutstanding P (r0 / 1200)
            (specReducingEMI P (r0 / 1200) t) (j + 1)) } := by
  intro j hj
  have h1200 : (12 * 100 : ℚ) = 1200 := by norm_num
  have hn0 : t.toNat ≠ 0 := by omega
  have hsched : calculateEMISchedule ⟨P, r0, t, "reducing", y, m, d, freq⟩ =
      reducingGo (r0 / 1200) (calculateReducingBalanceEMI P (r0 / 1200) t)
        y m d t.toNat 0 P := by
    rw [show calculateEMISchedule ⟨P, r0, t, "reducing", y, m, d, freq⟩ =
        reducingGo (r0 / (12 * 100))
          (calculateReducingBalanceEMI P (r0 / (12 * 100)) t)
          y m d t.toNat 0 P from rfl, h1200]
  rw [hsched,
    reducingGo_getElem (r0 / 1200) (calculateReducingBalanceEMI P (r0 / 1200) t)
      y m d t.toNat j 0 P hj,
    show specReducingEMI P (r0 / 1200) t =
      calculateReducingBalanceEMI P (r0 / 1200) t from rfl]
  have hnonneg : ∀ k, k ≤ t.toNat →
      0 ≤ reduceBal (r0 / 1200) (calculateReducingBalanceEMI P (r0 / 1200) t) P k := by
    rcases eq_or_lt_of_le hr with h0 | hpos
    · have hr0 : r0 / 1200 = 0 := by rw [← h0]; norm_num
      have hemi0 : calculateReducingBalanceEMI P (r0 / 1200) t =
          P / ((t.toNat : ℕ) : ℚ) := by
        rw [calculateReducingBalanceEMI_toNat P _ t ht, if_pos hr0]
      rw [hemi0, hr0]
      exact reduceBal_nonneg_zero_rate P t.toNat hP hn0
    · have hrpos : 0 < r0 / 1200 := div_pos hpos (by norm_num)
      have hemi1 : calculateReducingBalanceEMI P (r0 / 1200) t =
          P * (r0 / 1200) * (1 + r0 / 1200) ^ t.toNat /
            ((1 + r0 / 1200) ^ t.toNat - 1) := by
        rw [calculateReducingBalanceEMI_toNat P _ t ht, if_neg (ne_of_gt hrpos)]
      rw [hemi1]
      exact reduceBal_nonneg_pos P (r0 / 1200) t.toNat hP hrpos hn0
  have hspec := specOutstanding_eq_reduceBal P (r0 / 1200)
    (calculateReducingBalanceEMI P (r0 / 1200) t) t.toNat hnonneg
  rw [hspec j (Nat.le_of_lt hj), hspec (j + 1) hj,
    max_eq_right (hnonneg (j + 1) hj)]
  simp [Nat.zero_add]

/-- Witness for C3 at the specification's scenario 2 (principal 100000,
rate 12 %, tenure 12, reducing), first installment. -/
theorem reducing_schedule_components_witness :
    (calculateEMISchedule ⟨100000, 12, 12, "reducing", 2024, 1, 1, "monthly"⟩)[0]? =
      some
        { installmentNumber := 0 + 1
          dueDate := jsAddMonths 2024 1 1 (0 + 1)
          emiAmount := jsRound (specReducingEMI 100000 (12 / 1200) 12)
          principalAmount := jsRound (specReducingEMI 100000 (12 / 1200) 12 -
            specOutstanding 100000 (12 / 1200)
              (specReducingEMI 100000 (12 / 1200) 12) 0 * (12 / 1200))
          interestAmount := jsRound (specOutstanding 100000 (12 / 1200)
            (specReducingEMI 100000 (12 / 1200) 12) 0 * (12 / 1200))
          outstandingBalance := jsRound (specOutstanding 100000 (12 / 1200)
            (specReducingEMI 100000 (12 / 1200) 12) (0 + 1)) } :=
  reducing_schedule_components 100000 12 12 2024 1 1 "monthly"
    (by norm_num) (by norm_num) (by norm_num) 0 (by norm_num)

/-- C6 (counterexample): for a flat loan with principal 100, rate 0 and
tenure 6 the rounded principal components are six times `round(100/6) = 17`,
summing to 102 — off by two minor units, not at most one. -/
theorem principal_conservation_cex :
    ((calculateEMISchedule ⟨100, 0, 6, "flat", 2024, 1, 1, "monthly"⟩).map
      (fun it => it.principalAmount)).sum = 102
    ∧ ¬ |(102 : ℚ) - 100| ≤ 1 := by
  constructor
  · rw [show calculateEMISchedule ⟨100, 0, 6, "flat", 2024, 1, 1, "monthly"⟩ =
        flatGo ((100 + 100 * 0 * ((6 : ℤ) : ℚ) / (12 * 100)) / ((6 : ℤ) : ℚ))
          (100 / ((6 : ℤ) : ℚ)) (100 * 0 * ((6 : ℤ) : ℚ) / (12 * 100) / ((6 : ℤ) : ℚ))
          2024 1 1 (6 : ℤ).toNat 0 100 from rfl]
    rw [flatGo_map_principal]
    have h17 : jsRound (100 / ((6 : ℤ) : ℚ)) = 17 := by
      norm_num [jsRound]
    rw [h17]
    rfl
  · norm_num

/-- C6 (amended): for every valid input (either interest type), the sum of the
rounded principal components differs from the original principal by at most
`tenure/2` minor units — half a unit of independent rounding per installment;
it is not guaranteed to be within one minor unit. -/
theorem principal_sum_bound (P r0 : ℚ) (t : ℤ) (ty : String) (y m d : ℕ)
    (freq : String) (hP : 0 < P) (ht : 1 ≤ t) (hr : 0 ≤ r0) :
    |((calculateEMISchedule ⟨P, r0, t, ty, y, m, d, freq⟩).map
        (fun it => ((it.principalAmount : ℤ) : ℚ))).sum - P| ≤ (t : ℚ) / 2 := by
  have hn0 : t.toNat ≠ 0 := by omega
  have htn : ((t.toNat : ℕ) : ℚ) = (t : ℚ) := by
    exact_mod_cast congrArg (fun z : ℤ => (z : ℚ)) (Int.toNat_of_nonneg (by omega))
  have htQ : (0 : ℚ) < (t : ℚ) := by exact_mod_cast (by omega : (0 : ℤ) < t)
  by_cases hty : ty = "flat"
  · subst hty
    rw [show calculateEMISchedule ⟨P, r0, t, "flat", y, m, d, freq⟩ =
        flatGo ((P + P * r0 * (t : ℚ) / (12 * 100)) / (t : ℚ)) (P / (t : ℚ))
          (P * r0 * (t : ℚ) / (12 * 100) / (t : ℚ)) y m d t.toNat 0 P from rfl,
      show (fun it : EMIScheduleItem => ((it.principalAmount : ℤ) : ℚ)) =
        ((fun x : ℤ => (x : ℚ)) ∘ fun it : EMIScheduleItem => it.principalAmount)
        from rfl,
      ← List.map_map, flatGo_map_principal, List.map_replicate, List.sum_replicate,
      nsmul_eq_mul, htn]
    have hv := jsRound_err (P / (t : ℚ))
    have habs : (t : ℚ) * ((jsRound (P / (t : ℚ)) : ℤ) : ℚ) - P =
        (t : ℚ) * (((jsRound (P / (t : ℚ)) : ℤ) : ℚ) - P / (t : ℚ)) := by
      field_simp
      ring
    rw [habs, abs_mul, abs_of_pos htQ]
    calc (t : ℚ) * |((jsRound (P / (t : ℚ)) : ℤ) : ℚ) - P / (t : ℚ)|
        ≤ (t : ℚ) * (1 / 2) := by
          exact mul_le_mul_of_nonneg_left hv htQ.le
      _ = (t : ℚ) / 2 := by ring
  · have hsched : calculateEMISchedule ⟨P, r0, t, ty, y, m, d, freq⟩ =
        reducingGo (r0 / (12 * 100))
          (calculateReducingBalanceEMI P (r0 / (12 * 100)) t)
          y m d t.toNat 0 P := by
      simp only [calculateEMISchedule]
      rw [if_neg hty]
    rw [hsched,
      show (fun it : EMIScheduleItem => ((it.principalAmount : ℤ) : ℚ)) =
        ((fun x : ℤ => (x : ℚ)) ∘ fun it : EMIScheduleItem => it.principalAmount)
        from rfl,
      ← List.map_map, reducingGo_map_principal, List.map_map]
    have hrr : 0 ≤ r0 / (12 * 100) := by positivity
    have hsum := reducing_sum_eq_P P (r0 / (12 * 100))
      (calculateReducingBalanceEMI P (r0 / (12 * 100)) t) t.toNat hP hn0 hrr
      (fun h => by rw [calculateReducingBalanceEMI_toNat P _ t ht, if_pos h])
      (fun h => by rw [calculateReducingBalanceEMI_toNat P _ t ht, if_neg h])
    have herr := sum_round_err
      (fun j => calculateReducingBalanceEMI P (r0 / (12 * 100)) t -
        reduceBal (r0 / (12 * 100))
          (calculateReducingBalanceEMI P (r0 / (12 * 100)) t) P j *
          (r0 / (12 * 100))) t.toNat
    rw [hsum] at herr
    rw [← htn]
    simpa [Function.comp] using herr

/-- Witness for C6 (amended) at the counterexample input: the flat
100 / 0 % / 6 schedule's principal components sum within 6/2 = 3 of 100. -/
theorem principal_sum_bound_witness :
    |((calculateEMISchedule ⟨100, 0, 6, "flat", 2024, 1, 1, "monthly"⟩).map
        (fun it => ((it.principalAmount : ℤ) : ℚ))).sum - 100| ≤ ((6 : ℤ) : ℚ) / 2 :=
  principal_sum_bound 100 0 6 "flat" 2024 1 1 "monthly"
    (by norm_num) (by norm_num) (by norm_num)

end LMS
